import Mathlib

/-!
# Verification of the salsa core sample

A shallow embedding, in Lean 4, of the parts of the `carljm/salsa`
repository sample that the claims concern:

* `src/storage.rs` — the storage registry (jar map, ingredient vector,
  views, nonce, ingredient cache);
* `src/function/inputs.rs` — the tracked-function `origin` accessor;
* `examples/hello_world/class_table.rs` — the `AllClasses` / `Fields` /
  `AllFields` queries;
* `tests/tracked_fn_read_own_specify.rs` — the specify-overrides scenario,
  whose engine (fetch / specify / synthetic writes) is modelled from the
  specification because the corresponding source files are not part of the
  sample.

Rust machine integers are modelled as `Nat` with explicit bounds where the
code asserts them; Rust panics become `Option.none`; `&mut` methods become
explicit state passing.
-/

/-! ## hello_world class-table queries (`examples/hello_world/class_table.rs`) -/

/-- Rust `DefId(usize)` from `class_table.rs`. -/
structure DefId where
  id : Nat
deriving DecidableEq, Repr, Inhabited

/-- Query `AllClasses`: `Arc::new(vec![DefId(0), DefId(10)])` (dummy impl). -/
def AllClasses (_ : Unit) : List DefId :=
  [⟨0⟩, ⟨10⟩]

/-- Query `Fields(class)`: `Arc::new(vec![DefId(class.0 + 1), DefId(class.0 + 2)])`
(the Rust argument `class` is a Lean keyword, hence `cls`). -/
def Fields (cls : DefId) : List DefId :=
  [⟨cls.id + 1⟩, ⟨cls.id + 2⟩]

/-- Query `AllFields`: flat-maps `Fields` over `AllClasses(())`, indexing each
fields vector by `0..fields.len()` exactly as the Rust closure does. -/
def AllFields (u : Unit) : List DefId :=
  (AllClasses u).flatMap fun defId =>
    (List.range (Fields defId).length).map fun i => (Fields defId).get! i

/-! ## Storage registry (`src/storage.rs`)

`TypeId` is modelled as `Nat`.  A `dyn Ingredient` is modelled by the
capabilities `storage.rs` actually uses: its self-reported index, its
`requires_reset_for_new_revision` flag, a `reset_for_new_revision` effect
(modelled as a counter bump), and an abstract payload giving it identity. -/

/-- Model of a `dyn Ingredient` as used by `storage.rs`. -/
structure Ingredient where
  ingredient_index : Nat
  requires_reset_for_new_revision : Bool
  reset_count : Nat
  payload : Nat
deriving DecidableEq, Repr

/-- Method `Ingredient::reset_for_new_revision` (abstract effect: bump a counter). -/
def resetForNewRevision (i : Ingredient) : Ingredient :=
  { i with reset_count := i.reset_count + 1 }

/-- Model of a `dyn Jar`: its `TypeId` and its `create_ingredients`
function, which receives the first ingredient index. -/
structure Jar where
  type_id : Nat
  create_ingredients : Nat → List Ingredient

/-- Modelled from the spec: `Runtime` (file `runtime.rs` is not part of the
sample).  Per §4.A the runtime carries the monotone global revision;
`new_revision` advances it. -/
structure Runtime where
  revision : Nat
deriving DecidableEq, Repr

/-- Modelled from the spec: `Runtime::new_revision` increments the global
revision counter (§4.A `bump`). -/
def newRevision (r : Runtime) : Runtime :=
  { r with revision := r.revision + 1 }

/-- Modelled from the spec: one entry of the view/upcast registry (§4.K):
a view trait type id plus the two upcast thunks `&Db → &View` and
`&mut Db → &mut View`.  Databases and view references are abstracted as
`Nat`. -/
structure ViewEntry where
  type_id : Nat
  func : Nat → Nat
  func_mut : Nat → Nat

/-- Modelled from the spec: the `Views` registry, a map from view-type id
to upcast thunks (§4.K). -/
def Views : Type := List ViewEntry

/-- Modelled from the spec: `Views::add` registers upcast thunks for a view
type (map insert; the most recent registration for a type id wins). -/
def viewsAdd (vs : Views) (tid : Nat) (f g : Nat → Nat) : Views :=
  (⟨tid, f, g⟩ : ViewEntry) :: vs

/-- Modelled from the spec: look up the registered upcasts for a view type. -/
def viewsFind : Views → Nat → Option ViewEntry
  | [], _ => none
  | e :: rest, tid => if e.type_id = tid then some e else viewsFind rest tid

/-- Constant `u32::MAX`, the bound asserted by `IngredientIndex::from`. -/
def u32Max : Nat := 4294967295

/-- Function `IngredientIndex::from(v)`: asserts `v < u32::MAX` (panic modelled as
`none`), otherwise the index is the value itself. -/
def ingredientIndexFrom (v : Nat) : Option Nat :=
  if v < u32Max then some v else none

/-- The `Storage` struct: jar map (assoc list from `TypeId` to first
ingredient index), ingredient vector, reset list, views, nonce, runtime. -/
structure Storage where
  jar_map : List (Nat × Nat)
  ingredients_vec : List Ingredient
  ingredients_requiring_reset : List Nat
  upcasts : Views
  nonce : Nat
  runtime : Runtime

/-- Assoc-list lookup used for the jar map (`FxHashMap::get`). -/
def jarMapLookup : List (Nat × Nat) → Nat → Option Nat
  | [], _ => none
  | (t, i) :: rest, tid => if t = tid then some i else jarMapLookup rest tid

/-- The loop body of `add_or_lookup_jar_by_type`: push each created
ingredient, first recording it in `ingredients_requiring_reset` when
requested, then `assert_eq!` its self-reported index against the position
at which `ConcurrentVec::push` actually placed it (the pre-push length);
a failed assertion is a panic (`none`). -/
def pushIngredients :
    List Ingredient → List Ingredient → List Nat →
      Option (List Ingredient × List Nat)
  | [], vec, rst => some (vec, rst)
  | ing :: rest, vec, rst =>
    if ing.ingredient_index = vec.length then
      pushIngredients rest (vec ++ [ing])
        (if ing.requires_reset_for_new_revision
          then rst ++ [ing.ingredient_index] else rst)
    else
      none

/-- Method `Storage::add_or_lookup_jar_by_type`: under the jar-map lock, return
the existing index for the jar's type id, or else register the jar: the
new index is the current vector length, the jar's ingredients are pushed
in order, and the index is recorded in the map. -/
def addOrLookupJarByType (s : Storage) (jar : Jar) :
    Option (Nat × Storage) :=
  match jarMapLookup s.jar_map jar.type_id with
  | some idx => some (idx, s)
  | none =>
    (ingredientIndexFrom s.ingredients_vec.length).bind fun idx =>
      (pushIngredients (jar.create_ingredients idx) s.ingredients_vec
          s.ingredients_requiring_reset).map fun out =>
        (idx,
          { s with
            jar_map := (jar.type_id, idx) :: s.jar_map
            ingredients_vec := out.1
            ingredients_requiring_reset := out.2 })

/-- Method `Storage::lookup_jar_by_type`: jar-map lookup by type id. -/
def lookupJarByType (s : Storage) (jar : Jar) : Option Nat :=
  jarMapLookup s.jar_map jar.type_id

/-- Method `Storage::lookup_ingredient`: `ingredients_vec.get(index).unwrap()`
(the `unwrap` panic is `none`). -/
def lookupIngredient (s : Storage) (index : Nat) : Option Ingredient :=
  s.ingredients_vec[index]?

/-- The reset loop of `lookup_ingredient_mut`: call
`reset_for_new_revision` on every ingredient listed in
`ingredients_requiring_reset` (`unwrap` panic is `none`). -/
def resetAll : List Nat → List Ingredient → Option (List Ingredient)
  | [], vec => some vec
  | i :: rest, vec =>
    match vec[i]? with
    | none => none
    | some ing => resetAll rest (vec.set i (resetForNewRevision ing))

/-- Method `Storage::lookup_ingredient_mut`: advance the runtime to a new
revision, reset the ingredients requiring reset, then hand out the
requested ingredient together with the updated storage. -/
def lookupIngredientMut (s : Storage) (index : Nat) :
    Option (Ingredient × Storage) :=
  let rt := newRevision s.runtime
  (resetAll s.ingredients_requiring_reset s.ingredients_vec).bind fun vec' =>
    vec'[index]?.map fun ing =>
      (ing, { s with runtime := rt, ingredients_vec := vec' })

/-- Method `Storage::add_upcast`: delegate to `Views::add`. -/
def addUpcast (s : Storage) (tid : Nat) (f g : Nat → Nat) : Storage :=
  { s with upcasts := viewsAdd s.upcasts tid f g }

/-- Modelled from the spec: `Views::try_view_as` (§4.K) — find the entry
for the view type and apply the shared-reference thunk to the database. -/
def tryViewAs (vs : Views) (tid : Nat) (db : Nat) : Option Nat :=
  (viewsFind vs tid).map fun e => e.func db

/-- Modelled from the spec: `Views::try_view_as_mut` (§4.K). -/
def tryViewAsMut (vs : Views) (tid : Nat) (db : Nat) : Option Nat :=
  (viewsFind vs tid).map fun e => e.func_mut db

/-- Method `dyn Database::as_view`: `self.views().try_view_as(self).unwrap()` —
the `unwrap` panic on an unregistered view is `none`. -/
def asView (s : Storage) (tid : Nat) (db : Nat) : Option Nat :=
  tryViewAs s.upcasts tid db

/-- Method `dyn Database::as_view_mut`: clones the views, then
`try_view_as_mut(self).unwrap()`. -/
def asViewMut (s : Storage) (tid : Nat) (db : Nat) : Option Nat :=
  tryViewAsMut s.upcasts tid db

/-- Modelled from the spec: the process-wide nonce generator (`nonce.rs`
is not part of the sample; §6 and §9 specify a single atomic counter).
Returns the fresh nonce and the advanced counter. -/
def nonceGen (counter : Nat) : Nat × Nat :=
  (counter, counter + 1)

/-- Method `Storage::default`: empty registry, a fresh nonce drawn from the
process-wide generator, default runtime.  Returns the storage and the
advanced generator counter. -/
def storageDefault (gen : Nat) : Storage × Nat :=
  let (n, gen') := nonceGen gen
  ({ jar_map := []
     ingredients_vec := []
     ingredients_requiring_reset := []
     upcasts := []
     nonce := n
     runtime := { revision := 0 } }, gen')

/-- The `k`-th storage created by `Default::default()` in a process whose
generator counter started at `gen`. -/
def nthStorage (gen : Nat) : Nat → Storage
  | 0 => (storageDefault gen).1
  | k + 1 => nthStorage (storageDefault gen).2 k

/-! ## Ingredient cache (`src/storage.rs`, `IngredientCache`)

The `OnceLock<(Nonce, *const I)>` is modelled as
`Option (Nat × Ingredient)`: since the ingredient vector has stable
addresses, a cached pointer is determined by the ingredient value it
points at.  `get_or_create` returns the ingredient together with the
cache state after the call; a panic inside `lookup_ingredient` is `none`.
The index-producing closure is represented by the index it returns. -/

/-- Method `IngredientCache::create_ingredient`: `lookup_ingredient(create_index())`
(the `assert_type` downcast is the identity in this monomorphic model). -/
def cacheCreateIngredient (s : Storage) (createIndex : Nat) :
    Option Ingredient :=
  lookupIngredient s createIndex

/-- Method `IngredientCache::get_or_create`: initialize the once-cell with the
freshly looked-up ingredient and the storage nonce if empty; then, if the
cached nonce matches the storage nonce, return the cached pointer,
otherwise perform a fresh lookup on the given storage. -/
def getOrCreate (cache : Option (Nat × Ingredient)) (s : Storage)
    (createIndex : Nat) :
    Option (Ingredient × Option (Nat × Ingredient)) :=
  match cache with
  | none =>
    -- the once-cell is initialized with `(s.nonce, ptr)`; the subsequent
    -- nonce check `storage.nonce() == nonce` trivially passes
    (cacheCreateIngredient s createIndex).map fun ing =>
      (ing, some (s.nonce, ing))
  | some (n, ing) =>
    if s.nonce = n then some (ing, some (n, ing))
    else
      (cacheCreateIngredient s createIndex).map fun fresh =>
        (fresh, some (n, ing))

/-- The cached entry is consistent with storage `s` at index `createIndex`:
whenever the cached nonce is the nonce of `s`, the cached pointer is the
one `lookup_ingredient` yields on `s` (guaranteed in the real system by
nonce uniqueness across storages plus the fixed per-cache index closure). -/
def CacheConsistent (cache : Option (Nat × Ingredient)) (s : Storage)
    (createIndex : Nat) : Prop :=
  ∀ ing, cache = some (s.nonce, ing) → lookupIngredient s createIndex = some ing

/-! ## Tracked-function `origin` accessor (`src/function/inputs.rs`)

`QueryOrigin` and the memo map live in files not part of the sample; they
are modelled from the spec (§3 *Memo*: `origin` is one of Derived,
Assigned, BaseInput, FieldOfTrackedStruct, FixpointInitial; the memo map
is keyed by argument id). -/

/-- Modelled from the spec: `QueryOrigin` (§3), dependency edges abstracted
to `Nat` pairs `(Idx, Id)`. -/
inductive QueryOrigin where
  | derived (deps : List (Nat × Nat))
  | assigned
  | baseInput
  | fieldOfTrackedStruct
  | fixpointInitial
deriving DecidableEq, Repr

/-- Modelled from the spec: the part of a memo that `origin` touches —
its `revisions.origin` field (§3 *Memo*). -/
structure MemoRevisions where
  origin : QueryOrigin
deriving DecidableEq, Repr

/-- Modelled from the spec: a stored memo as seen by `inputs.rs` (§3). -/
structure FnMemo where
  revisions : MemoRevisions
deriving DecidableEq, Repr

/-- Modelled from the spec: `MemoMap::get` — lookup by argument id (§3). -/
def memoMapGet : List (Nat × FnMemo) → Nat → Option FnMemo
  | [], _ => none
  | (k, m) :: rest, key => if k = key then some m else memoMapGet rest key

/-- The tracked-function ingredient state used by `inputs.rs`. -/
structure IngredientImpl where
  memo_map : List (Nat × FnMemo)

/-- Method `IngredientImpl::origin`:
`self.memo_map.get(key).map(|m| m.revisions.origin.clone())`. -/
def IngredientImpl.origin (self : IngredientImpl) (key : Nat) :
    Option QueryOrigin :=
  (memoMapGet self.memo_map key).map fun m => m.revisions.origin

/-! ## Specify scenario (`tests/tracked_fn_read_own_specify.rs`)

The memoization engine (fetch / specify / synthetic writes) lives in
source files that are not part of the sample, so the engine is modelled
from the spec: the durability clock from §4.A, the dependency recorder
from §4.C, the red/green `fetch` algorithm from §4.D, the tracked-struct
ingredient from §4.E, and `synthetic_write` from §4.J, instantiated at
the concrete two-query graph of the test:

* `tracked_fn(db, input)` reads `input.field`, creates
  `MyTracked { field: input.field * 2 }`, specifies
  `tracked_fn_extra(t) = 2222`, and returns `tracked_fn_extra(db, t)`;
* `tracked_fn_extra(db, t)`'s body returns `0`
  (the `push_log` debug formatting is not modelled as a tracked read).

Executions of the user functions are counted in the state, mirroring the
test's logger. -/

/-- Modelled from the spec: durability levels (§3). -/
inductive Durability where
  | low
  | medium
  | high
deriving DecidableEq, Repr

/-- Numeric rank of a durability level (LOW < MEDIUM < HIGH). -/
def durRank : Durability → Nat
  | .low => 0
  | .medium => 1
  | .high => 2

/-- Minimum of two durabilities. -/
def durMin (a b : Durability) : Durability :=
  if durRank a ≤ durRank b then a else b

/-- Modelled from the spec: the revision clock with per-durability
sub-revisions (§4.A). -/
structure Clock where
  revision : Nat
  lowRev : Nat
  medRev : Nat
  highRev : Nat
deriving DecidableEq, Repr

/-- Spec §4.A `sub(d)`: the sub-revision for durability `d`. -/
def clockSub (c : Clock) : Durability → Nat
  | .low => c.lowRev
  | .medium => c.medRev
  | .high => c.highRev

/-- Spec §4.A `bump(d)`: increment the global revision and the sub-revisions
for durabilities `≤ d`. -/
def clockBump (c : Clock) (d : Durability) : Clock :=
  let r := c.revision + 1
  { revision := r
    lowRev := r
    medRev := if durRank Durability.medium ≤ durRank d then r else c.medRev
    highRev := if durRank Durability.high ≤ durRank d then r else c.highRev }

/-- A dependency edge recorded by the scenario's queries: a read of
`input.field`, or a read of the `tracked_fn_extra` memo. -/
inductive DepEdge where
  | inputFieldDep
  | extraDep
deriving DecidableEq, Repr

/-- Modelled from the spec: a memo's origin (§3), here either *Derived*
with its recorded dependency edges or *Assigned* via specify. -/
inductive SOrigin where
  | sDerived (deps : List DepEdge)
  | sAssigned
deriving DecidableEq, Repr

/-- Modelled from the spec: a memo (§3). -/
structure SMemo where
  value : Nat
  verifiedAt : Nat
  changedAt : Nat
  durability : Durability
  origin : SOrigin
deriving DecidableEq, Repr

/-- The tracked-struct entry created by `MyTracked::new` (§4.E): its
single field's value and that field's `changed_at` stamp. -/
structure TrackedEntry where
  fieldValue : Nat
  fieldChangedAt : Nat
deriving DecidableEq, Repr

/-- The scenario database: clock, the one input, the one tracked struct,
the two memos, and execution counters for the two user functions. -/
structure ScenarioDb where
  clock : Clock
  inputField : Nat
  inputChangedAt : Nat
  inputDurability : Durability
  tracked : Option TrackedEntry
  memoMain : Option SMemo
  memoExtra : Option SMemo
  execMain : Nat
  execExtra : Nat
deriving DecidableEq, Repr

/-- Modelled from the spec: an active-query frame (§4.C): in-progress
dependency list, minimum-durability accumulator (starts HIGH), and
changed-at accumulator (starts 0). -/
structure Frame where
  deps : List DepEdge
  durAcc : Durability
  changedAcc : Nat
deriving DecidableEq, Repr

/-- The initial frame pushed when a query starts executing (§4.C). -/
def initFrame : Frame :=
  { deps := [], durAcc := .high, changedAcc := 0 }

/-- Spec §4.C `report_read`: append the edge, fold durability by `min` and
changed-at by `max`. -/
def reportRead (fr : Frame) (e : DepEdge) (changedAt : Nat)
    (d : Durability) : Frame :=
  { deps := fr.deps ++ [e]
    durAcc := durMin fr.durAcc d
    changedAcc := max fr.changedAcc changedAt }

/-- Reading `input.field` (§4.F): returns the value and reports an edge
with the input's `changed_at` and durability. -/
def readInputField (db : ScenarioDb) (fr : Frame) : Nat × Frame :=
  (db.inputField,
   reportRead fr .inputFieldDep db.inputChangedAt db.inputDurability)

/-- Constructor `MyTracked::new` inside the executing query (§4.E): on first creation
allocate the entry with `changed_at = current_revision`; on re-creation
update the field, bumping its `changed_at` only if the value changed. -/
def trackedStructNew (db : ScenarioDb) (v : Nat) : ScenarioDb :=
  match db.tracked with
  | none =>
    { db with tracked := some ⟨v, db.clock.revision⟩ }
  | some e =>
    let ca := if e.fieldValue = v then e.fieldChangedAt else db.clock.revision
    { db with tracked := some ⟨v, ca⟩ }

/-- Spec §4.D specify: write a memo with `origin = Assigned`,
`changed_at = verified_at = current_revision`, `durability = HIGH`. -/
def specifyExtra (db : ScenarioDb) (v : Nat) : ScenarioDb :=
  let m : SMemo :=
    { value := v
      verifiedAt := db.clock.revision
      changedAt := db.clock.revision
      durability := .high
      origin := .sAssigned }
  { db with memoExtra := some m }

/-- Mark `tracked_fn_extra`'s memo verified at the current revision. -/
def setExtraVerified (db : ScenarioDb) : ScenarioDb :=
  let m' := db.memoExtra.map fun m => { m with verifiedAt := db.clock.revision }
  { db with memoExtra := m' }

/-- Mark `tracked_fn`'s memo verified at the current revision. -/
def setMainVerified (db : ScenarioDb) : ScenarioDb :=
  let m' := db.memoMain.map fun m => { m with verifiedAt := db.clock.revision }
  { db with memoMain := m' }

/-- Spec §4.D EXECUTE for `tracked_fn_extra`: its body records no tracked
reads and returns 0; `changed_at` is preserved when the new value equals
the old one, else stamped with the current revision. -/
def executeExtra (db : ScenarioDb) : Nat × ScenarioDb :=
  let fr := initFrame
  let v := 0
  let changedAt := match db.memoExtra with
    | some m => if m.value = v then m.changedAt else db.clock.revision
    | none => db.clock.revision
  (v, { db with
        memoExtra := some
          { value := v
            verifiedAt := db.clock.revision
            changedAt := changedAt
            durability := fr.durAcc
            origin := .sDerived fr.deps }
        execExtra := db.execExtra + 1 })

/-- Whether one of `tracked_fn_extra`'s own recorded dependencies changed
after `rSince` (§4.D deep-verify).  Its body records no reads, so the
list is empty in every reachable state; a (unreachable) self edge is
conservatively treated as changed. -/
def extraDepsChanged (db : ScenarioDb) (rSince : Nat)
    (deps : List DepEdge) : Bool :=
  deps.any fun e =>
    match e with
    | .inputFieldDep => decide (db.inputChangedAt > rSince)
    | .extraDep => true

/-- Spec §4.D `maybe_changed_after` for `tracked_fn_extra`: shallow verify
(fast path, durability skip), then for an Assigned memo the value stands
without executing `f`, and for a Derived memo the dependencies are
deep-verified, re-executing on a change; finally compare `changed_at`
with `rSince`. -/
def maybeChangedAfterExtra (db : ScenarioDb) (rSince : Nat) :
    Bool × ScenarioDb :=
  match db.memoExtra with
  | none => (true, db)
  | some m =>
    if m.verifiedAt = db.clock.revision then
      (decide (m.changedAt > rSince), db)
    else if clockSub db.clock m.durability ≤ m.verifiedAt then
      (decide (m.changedAt > rSince), setExtraVerified db)
    else
      match m.origin with
      | .sAssigned => (decide (m.changedAt > rSince), setExtraVerified db)
      | .sDerived deps =>
        if extraDepsChanged db m.verifiedAt deps then
          let (_, db') := executeExtra db
          match db'.memoExtra with
          | some m' => (decide (m'.changedAt > rSince), db')
          | none => (true, db')
        else
          (decide (m.changedAt > rSince), setExtraVerified db)

/-- Fetch of `tracked_fn_extra` while `tracked_fn`'s frame is active:
the §4.D fetch steps, followed by a §4.C `report_read` of the resulting
memo's `changed_at` and durability into the caller's frame. -/
def fetchExtraDuring (db : ScenarioDb) (fr : Frame) :
    Nat × ScenarioDb × Frame :=
  let step : Nat × ScenarioDb :=
    match db.memoExtra with
    | none => executeExtra db
    | some m =>
      if m.verifiedAt = db.clock.revision then (m.value, db)
      else if clockSub db.clock m.durability ≤ m.verifiedAt then
        (m.value, setExtraVerified db)
      else
        match m.origin with
        | .sAssigned => (m.value, setExtraVerified db)
        | .sDerived deps =>
          if extraDepsChanged db m.verifiedAt deps then executeExtra db
          else (m.value, setExtraVerified db)
  let (v, db') := step
  match db'.memoExtra with
  | some m' => (v, db', reportRead fr .extraDep m'.changedAt m'.durability)
  | none => (v, db', fr)

/-- Spec §4.D EXECUTE for `tracked_fn`: push a frame, run the body (read
`input.field`, create `MyTracked { field: field * 2 }`, specify
`tracked_fn_extra(t) = 2222`, fetch `tracked_fn_extra(t)`), pop the
frame, and store the new derived memo. -/
def executeMain (db : ScenarioDb) : Nat × ScenarioDb :=
  let fr0 := initFrame
  let (v1, fr1) := readInputField db fr0
  let db1 := trackedStructNew db (v1 * 2)
  let db2 := specifyExtra db1 2222
  let (v2, db3, fr2) := fetchExtraDuring db2 fr1
  let changedAt := match db.memoMain with
    | some m => if m.value = v2 then m.changedAt else db.clock.revision
    | none => db.clock.revision
  (v2, { db3 with
         memoMain := some
           { value := v2
             verifiedAt := db.clock.revision
             changedAt := changedAt
             durability := fr2.durAcc
             origin := .sDerived fr2.deps }
         execMain := db3.execMain + 1 })

/-- Whether one of `tracked_fn`'s recorded dependencies changed after
`rSince`, in recorded order with short-circuit (§4.D deep-verify). -/
def mainDepsChanged (db : ScenarioDb) (rSince : Nat) :
    List DepEdge → Bool × ScenarioDb
  | [] => (false, db)
  | e :: rest =>
    match e with
    | .inputFieldDep =>
      if db.inputChangedAt > rSince then (true, db)
      else mainDepsChanged db rSince rest
    | .extraDep =>
      let (c, db') := maybeChangedAfterExtra db rSince
      if c then (true, db') else mainDepsChanged db' rSince rest

/-- Spec §4.D `fetch` for `tracked_fn`: memo lookup, fast path on
`verified_at == current_revision`, durability skip, deep-verify of the
recorded dependencies, and EXECUTE on a miss or a changed dependency. -/
def fetchMain (db : ScenarioDb) : Nat × ScenarioDb :=
  match db.memoMain with
  | none => executeMain db
  | some m =>
    if m.verifiedAt = db.clock.revision then (m.value, db)
    else if clockSub db.clock m.durability ≤ m.verifiedAt then
      (m.value, setMainVerified db)
    else
      match m.origin with
      | .sAssigned => (m.value, setMainVerified db)
      | .sDerived deps =>
        let (c, db') := mainDepsChanged db m.verifiedAt deps
        if c then executeMain db' else (m.value, setMainVerified db')

/-- Spec §4.J `synthetic_write(d)`: bump the revision as if an input of
durability `d` had been set, changing no value. -/
def syntheticWrite (db : ScenarioDb) (d : Durability) : ScenarioDb :=
  { db with clock := clockBump db.clock d }

/-- The database of the test after `Database::default()` and
`MyInput::new(&db, 22)`: revision 1, the input's field stamped
`changed_at = 1` with the default LOW durability, no memos. -/
def dbStart : ScenarioDb :=
  { clock := ⟨1, 1, 1, 1⟩
    inputField := 22
    inputChangedAt := 1
    inputDurability := .low
    tracked := none
    memoMain := none
    memoExtra := none
    execMain := 0
    execExtra := 0 }

/-- The value `tracked_fn_extra`'s body computes (it returns `0`). -/
def extraBodyValue : Nat := 0

/-- State after the first `fetch(tracked_fn, input)`. -/
def dbAfterFirstFetch : ScenarioDb := (fetchMain dbStart).2

/-- State after `synthetic_write(LOW)`. -/
def dbAfterSyntheticWrite : ScenarioDb :=
  syntheticWrite dbAfterFirstFetch .low

/-! ## Helper lemmas and sample values -/

/-- A sample ingredient whose self-reported index is `idx`. -/
def sampleIngredient (idx : Nat) : Ingredient :=
  { ingredient_index := idx
    requires_reset_for_new_revision := false
    reset_count := 0
    payload := 42 }

/-- A sample jar creating a single well-indexed ingredient. -/
def sampleJar : Jar :=
  { type_id := 7, create_ingredients := fun idx => [sampleIngredient idx] }

/-- A fresh storage (first `Default::default()` of the process). -/
def sampleStorage0 : Storage := (storageDefault 0).1

/-- The sample storage after registering `sampleJar`. -/
def sampleStorage1 : Storage :=
  match addOrLookupJarByType sampleStorage0 sampleJar with
  | some p => p.2
  | none => sampleStorage0

/-- The result of `lookup_ingredient_mut` on the sample storage. -/
def sampleMutResult : Ingredient × Storage :=
  match lookupIngredientMut sampleStorage1 0 with
  | some p => p
  | none => (sampleIngredient 0, sampleStorage1)

theorem pushIngredients_append (ings : List Ingredient) :
    ∀ (vec vec' : List Ingredient) (rst rst' : List Nat),
      pushIngredients ings vec rst = some (vec', rst') → vec' = vec ++ ings := by
  induction ings with
  | nil =>
    intro vec vec' rst rst' h
    simp only [pushIngredients, Option.some.injEq, Prod.mk.injEq] at h
    simp [← h.1]
  | cons ing rest ih =>
    intro vec vec' rst rst' h
    unfold pushIngredients at h
    by_cases hidx : ing.ingredient_index = vec.length
    · rw [if_pos hidx] at h
      have := ih _ _ _ _ h
      simpa using this
    · rw [if_neg hidx] at h
      cases h

theorem pushIngredients_isSome (ings : List Ingredient) :
    ∀ (vec : List Ingredient) (rst : List Nat),
      (pushIngredients ings vec rst).isSome = true ↔
        ∀ i (h : i < ings.length),
          (ings[i]).ingredient_index = vec.length + i := by
  induction ings with
  | nil => intro vec rst; simp [pushIngredients]
  | cons ing rest ih =>
    intro vec rst
    unfold pushIngredients
    by_cases hidx : ing.ingredient_index = vec.length
    · rw [if_pos hidx, ih]
      constructor
      · intro hall i hi
        cases i with
        | zero => simpa using hidx
        | succ j =>
          have hj : j < rest.length := by
            simp only [List.length_cons] at hi
            omega
          have hr := hall j hj
          simp only [List.length_append, List.length_cons,
            List.length_nil] at hr
          simp only [List.getElem_cons_succ]
          omega
      · intro hall j hj
        have hr := hall (j + 1) (by simp only [List.length_cons]; omega)
        simp only [List.getElem_cons_succ] at hr
        simp only [List.length_append, List.length_cons, List.length_nil]
        omega
    · rw [if_neg hidx]
      constructor
      · intro h
        simp at h
      · intro hall
        exact absurd (by simpa using hall 0 (by simp)) hidx

/-- Claim C10: `AllFields(())` is, in order, the concatenation of
`Fields(c)` over every `c` in `AllClasses(())`, and with the sample
definitions it equals `[DefId(1), DefId(2), DefId(11), DefId(12)]`. -/
theorem all_fields_concat_spec :
    AllFields () = (AllClasses ()).flatMap Fields ∧
    AllFields () = [⟨1⟩, ⟨2⟩, ⟨11⟩, ⟨12⟩] := by
  decide

/-- Claim C9: the `origin` accessor returns `none` exactly when the memo
map has no memo for the key, and otherwise returns the stored memo's
origin; as a pure function of the ingredient state it leaves the memo
map untouched. -/
theorem origin_accessor_spec (impl : IngredientImpl) (key : Nat) :
    (impl.origin key = none ↔ memoMapGet impl.memo_map key = none) ∧
    (∀ m, memoMapGet impl.memo_map key = some m →
      impl.origin key = some m.revisions.origin) := by
  cases hm : memoMapGet impl.memo_map key with
  | none => simp [IngredientImpl.origin, hm]
  | some m => simp [IngredientImpl.origin, hm]

/-- Witness for claim C9 at a concrete one-entry memo map. -/
theorem origin_accessor_spec_witness :
    IngredientImpl.origin ⟨[(3, ⟨⟨QueryOrigin.assigned⟩⟩)]⟩ 3 =
      some QueryOrigin.assigned := by
  exact (origin_accessor_spec ⟨[(3, ⟨⟨QueryOrigin.assigned⟩⟩)]⟩ 3).2
    ⟨⟨QueryOrigin.assigned⟩⟩ rfl

theorem nthStorage_nonce (k : Nat) :
    ∀ gen : Nat, (nthStorage gen k).nonce = gen + k := by
  induction k with
  | zero => intro gen; rfl
  | succ j ih =>
    intro gen
    show (nthStorage (gen + 1) j).nonce = gen + (j + 1)
    rw [ih]
    omega

/-- Claim C7: storages created by `Default::default()` carry pairwise
distinct nonces: the process-wide generator never returns the same nonce
twice, so the `i`-th and `j`-th storages differ whenever `i ≠ j`. -/
theorem storage_nonce_unique (gen i j : Nat) (h : i ≠ j) :
    (nthStorage gen i).nonce ≠ (nthStorage gen j).nonce := by
  rw [nthStorage_nonce, nthStorage_nonce]
  omega

/-- Witness for claim C7: the first two storages of a process. -/
theorem storage_nonce_unique_witness :
    (nthStorage 0 0).nonce ≠ (nthStorage 0 1).nonce :=
  storage_nonce_unique 0 0 1 (by decide)

theorem addOrLookup_known (s : Storage) (jar : Jar) (idx : Nat)
    (h1 : jarMapLookup s.jar_map jar.type_id = some idx) :
    addOrLookupJarByType s jar = some (idx, s) := by
  unfold addOrLookupJarByType
  rw [h1]

theorem addOrLookup_unknown (s : Storage) (jar : Jar)
    (h1 : jarMapLookup s.jar_map jar.type_id = none)
    (h2 : s.ingredients_vec.length < u32Max) :
    addOrLookupJarByType s jar =
      (pushIngredients (jar.create_ingredients s.ingredients_vec.length)
          s.ingredients_vec s.ingredients_requiring_reset).map fun out =>
        (s.ingredients_vec.length,
          { s with
            jar_map :=
              (jar.type_id, s.ingredients_vec.length) :: s.jar_map
            ingredients_vec := out.1
            ingredients_requiring_reset := out.2 }) := by
  unfold addOrLookupJarByType ingredientIndexFrom
  rw [h1, if_pos h2]
  rfl

/-- Claim C2: registering a jar whose type is unknown returns the length
of the ingredient vector at the moment of registration as the index, and
the jar's `i`-th created ingredient lands at vector position `idx + i`,
where `lookup_ingredient` finds it. -/
theorem add_or_lookup_new_jar_spec (s : Storage) (jar : Jar) (idx : Nat)
    (s' : Storage)
    (h1 : lookupJarByType s jar = none)
    (h2 : addOrLookupJarByType s jar = some (idx, s')) :
    idx = s.ingredients_vec.length ∧
    ∀ i (h : i < (jar.create_ingredients idx).length),
      lookupIngredient s' (idx + i) =
        some ((jar.create_ingredients idx)[i]) := by
  rw [lookupJarByType] at h1
  by_cases hlen : s.ingredients_vec.length < u32Max
  · rw [addOrLookup_unknown s jar h1 hlen] at h2
    cases hp : pushIngredients
        (jar.create_ingredients s.ingredients_vec.length)
        s.ingredients_vec s.ingredients_requiring_reset with
    | none => rw [hp] at h2; cases h2
    | some out =>
      obtain ⟨vec', rst'⟩ := out
      rw [hp] at h2
      simp only [Option.map_some', Option.some.injEq, Prod.mk.injEq] at h2
      obtain ⟨hidx, hs⟩ := h2
      subst hidx
      subst hs
      refine ⟨rfl, ?_⟩
      intro i hi
      have hvec := pushIngredients_append _ _ _ _ _ hp
      subst hvec
      show (s.ingredients_vec ++
          jar.create_ingredients s.ingredients_vec.length)[
            s.ingredients_vec.length + i]? = _
      rw [List.getElem?_append_right (Nat.le_add_right _ _)]
      rw [Nat.add_sub_cancel_left]
      exact List.getElem?_eq_getElem hi
  · unfold addOrLookupJarByType ingredientIndexFrom at h2
    rw [h1, if_neg hlen] at h2
    cases h2

/-- Claim C3: `add_or_lookup_jar_by_type` is idempotent per jar type —
after a successful call, a second call with a jar of the same type
returns the same index and the unchanged storage, and
`lookup_jar_by_type` of that type returns the same index. -/
theorem add_or_lookup_idempotent (s : Storage) (jar jar2 : Jar)
    (idx : Nat) (s' : Storage)
    (hty : jar2.type_id = jar.type_id)
    (h : addOrLookupJarByType s jar = some (idx, s')) :
    addOrLookupJarByType s' jar2 = some (idx, s') ∧
    lookupJarByType s' jar2 = some idx := by
  cases hl : jarMapLookup s.jar_map jar.type_id with
  | some j =>
    rw [addOrLookup_known s jar j hl] at h
    simp only [Option.some.injEq, Prod.mk.injEq] at h
    obtain ⟨hidx, hs⟩ := h
    have hl2 : jarMapLookup s'.jar_map jar2.type_id = some idx := by
      rw [← hs, hty, ← hidx]; exact hl
    exact ⟨addOrLookup_known s' jar2 idx hl2, hl2⟩
  | none =>
    by_cases hlen : s.ingredients_vec.length < u32Max
    · rw [addOrLookup_unknown s jar hl hlen] at h
      cases hp : pushIngredients
          (jar.create_ingredients s.ingredients_vec.length)
          s.ingredients_vec s.ingredients_requiring_reset with
      | none => rw [hp] at h; cases h
      | some out =>
        rw [hp] at h
        simp only [Option.map_some', Option.some.injEq, Prod.mk.injEq] at h
        obtain ⟨hidx, hs⟩ := h
        have hl2 : jarMapLookup s'.jar_map jar2.type_id = some idx := by
          rw [← hs]
          simp only [jarMapLookup]
          rw [if_pos hty.symm, hidx]
        exact ⟨addOrLookup_known s' jar2 idx hl2, hl2⟩
    · unfold addOrLookupJarByType ingredientIndexFrom at h
      rw [hl, if_neg hlen] at h
      cases h

/-- Claim C5: registering a new jar type completes exactly when every
created ingredient's self-reported index equals the vector position
`idx + i` at which it is appended; any mismatch is the fatal
`assert_eq!` panic. -/
theorem jar_registration_assert_spec (s : Storage) (jar : Jar)
    (h1 : lookupJarByType s jar = none)
    (h2 : s.ingredients_vec.length < u32Max) :
    (addOrLookupJarByType s jar).isSome = true ↔
      ∀ i (h : i < (jar.create_ingredients s.ingredients_vec.length).length),
        ((jar.create_ingredients s.ingredients_vec.length)[i]).ingredient_index
          = s.ingredients_vec.length + i := by
  rw [lookupJarByType] at h1
  rw [addOrLookup_unknown s jar h1 h2, Option.isSome_map']
  exact pushIngredients_isSome _ _ _

/-- Claim C4: the revision advances exactly on the mutable-access path —
every successful `lookup_ingredient_mut` advances the runtime revision by
one, while `add_or_lookup_jar_by_type` (and the other shared-reference
operations, which are pure functions of the storage in this embedding)
leaves the runtime untouched. -/
theorem revision_advances_only_on_mut :
    (∀ (s : Storage) (index : Nat) (ing : Ingredient) (s' : Storage),
        lookupIngredientMut s index = some (ing, s') →
          s'.runtime.revision = s.runtime.revision + 1) ∧
    (∀ (s : Storage) (jar : Jar) (idx : Nat) (s' : Storage),
        addOrLookupJarByType s jar = some (idx, s') →
          s'.runtime = s.runtime) := by
  constructor
  · intro s index ing s' h
    unfold lookupIngredientMut at h
    cases hr : resetAll s.ingredients_requiring_reset s.ingredients_vec with
    | none => rw [hr] at h; cases h
    | some vec' =>
      rw [hr] at h
      simp only [Option.some_bind] at h
      cases hv : vec'[index]? with
      | none => rw [hv] at h; cases h
      | some ing' =>
        rw [hv] at h
        simp only [Option.map_some', Option.some.injEq, Prod.mk.injEq] at h
        obtain ⟨hv1, hv2⟩ := h
        subst hv2
        rfl
  · intro s jar idx s' h
    cases hl : jarMapLookup s.jar_map jar.type_id with
    | some j =>
      rw [addOrLookup_known s jar j hl] at h
      simp only [Option.some.injEq, Prod.mk.injEq] at h
      obtain ⟨hj, hs⟩ := h
      subst hs
      rfl
    | none =>
      by_cases hlen : s.ingredients_vec.length < u32Max
      · rw [addOrLookup_unknown s jar hl hlen] at h
        cases hp : pushIngredients
            (jar.create_ingredients s.ingredients_vec.length)
            s.ingredients_vec s.ingredients_requiring_reset with
        | none => rw [hp] at h; cases h
        | some out =>
          rw [hp] at h
          simp only [Option.map_some', Option.some.injEq, Prod.mk.injEq] at h
          obtain ⟨hj, hs⟩ := h
          subst hs
          rfl
      · unfold addOrLookupJarByType ingredientIndexFrom at h
        rw [hl, if_neg hlen] at h
        cases h

/-- Witness for claim C2: registering the sample jar in a fresh storage. -/
theorem add_or_lookup_new_jar_spec_witness :
    (0 : Nat) = sampleStorage0.ingredients_vec.length ∧
    lookupIngredient sampleStorage1 (0 + 0) = some (sampleIngredient 0) := by
  have h := add_or_lookup_new_jar_spec sampleStorage0 sampleJar 0
    sampleStorage1 rfl rfl
  exact ⟨h.1, h.2 0 (by decide)⟩

/-- Witness for claim C3: re-registering the sample jar is a no-op. -/
theorem add_or_lookup_idempotent_witness :
    addOrLookupJarByType sampleStorage1 sampleJar = some (0, sampleStorage1) ∧
    lookupJarByType sampleStorage1 sampleJar = some 0 :=
  add_or_lookup_idempotent sampleStorage0 sampleJar sampleJar 0
    sampleStorage1 rfl rfl

/-- Witness for claim C5: the sample jar's well-indexed ingredient
registers without a panic. -/
theorem jar_registration_assert_spec_witness :
    (addOrLookupJarByType sampleStorage0 sampleJar).isSome = true := by
  have h := jar_registration_assert_spec sampleStorage0 sampleJar rfl
    (by decide)
  exact h.mpr (by decide)

/-- Witness for claim C4: a mutable lookup on the sample storage advances
the revision, while the shared-reference registration did not. -/
theorem revision_advances_only_on_mut_witness :
    sampleMutResult.2.runtime.revision
      = sampleStorage1.runtime.revision + 1 ∧
    sampleStorage1.runtime = sampleStorage0.runtime := by
  constructor
  · exact revision_advances_only_on_mut.1 sampleStorage1 0
      sampleMutResult.1 sampleMutResult.2 rfl
  · exact revision_advances_only_on_mut.2 sampleStorage0 sampleJar 0
      sampleStorage1 rfl

/-- Claim C6: `as_view` / `as_view_mut` panic (return `none`) exactly
when no upcast for the view type is registered; for a registered view
they return the registered upcast thunk applied to the database — in
particular right after `add_upcast` the just-added thunks are used. -/
theorem as_view_spec (s : Storage) (tid dbv : Nat) :
    (asView s tid dbv = none ↔ viewsFind s.upcasts tid = none) ∧
    (asViewMut s tid dbv = none ↔ viewsFind s.upcasts tid = none) ∧
    (∀ e, viewsFind s.upcasts tid = some e →
      asView s tid dbv = some (e.func dbv) ∧
      asViewMut s tid dbv = some (e.func_mut dbv)) ∧
    (∀ f g, asView (addUpcast s tid f g) tid dbv = some (f dbv) ∧
      asViewMut (addUpcast s tid f g) tid dbv = some (g dbv)) := by
  refine ⟨?_, ?_, ?_, ?_⟩
  · simp [asView, tryViewAs, Option.map_eq_none']
  · simp [asViewMut, tryViewAsMut, Option.map_eq_none']
  · intro e he
    constructor
    · simp [asView, tryViewAs, he]
    · simp [asViewMut, tryViewAsMut, he]
  · intro f g
    constructor
    · simp [asView, tryViewAs, addUpcast, viewsAdd, viewsFind]
    · simp [asViewMut, tryViewAsMut, addUpcast, viewsAdd, viewsFind]

/-- Witness for claim C6: a concrete registered view. -/
theorem as_view_spec_witness :
    asView (addUpcast sampleStorage0 5 Nat.succ id) 5 3 = some 4 ∧
    asViewMut (addUpcast sampleStorage0 5 Nat.succ id) 5 3 = some 3 :=
  (as_view_spec sampleStorage0 5 3).2.2.2 Nat.succ id

/-- Claim C8: whenever a matching-nonce cache entry points at the
ingredient `lookup_ingredient` yields on this database (which nonce
uniqueness guarantees for caches filled by earlier calls with the same
index closure), `get_or_create` returns exactly what the uncached
`lookup_ingredient(create_index())` path yields — in particular a nonce
mismatch bypasses the cached pointer and performs a fresh lookup — and
the resulting cache state is again consistent. -/
theorem ingredient_cache_refines_lookup (cache : Option (Nat × Ingredient))
    (s : Storage) (createIndex : Nat)
    (h : CacheConsistent cache s createIndex) :
    (getOrCreate cache s createIndex).map Prod.fst =
      lookupIngredient s createIndex ∧
    (∀ res cache', getOrCreate cache s createIndex = some (res, cache') →
      CacheConsistent cache' s createIndex) := by
  cases cache with
  | none =>
    unfold getOrCreate cacheCreateIngredient
    cases hl : lookupIngredient s createIndex with
    | none =>
      refine ⟨by simp, ?_⟩
      intro res cache' h'
      simp at h'
    | some ing =>
      refine ⟨by simp, ?_⟩
      intro res cache' h'
      simp only [Option.map_some', Option.some.injEq, Prod.mk.injEq] at h'
      intro ing' hc
      rw [← h'.2] at hc
      simp only [Option.some.injEq, Prod.mk.injEq] at hc
      rw [← hc.2]
      exact hl
  | some p =>
    obtain ⟨n, ing⟩ := p
    by_cases hn : s.nonce = n
    · have hl : lookupIngredient s createIndex = some ing :=
        h ing (by rw [hn])
      unfold getOrCreate
      dsimp only
      rw [if_pos hn]
      refine ⟨by simp [hl], ?_⟩
      intro res cache' h'
      simp only [Option.some.injEq, Prod.mk.injEq] at h'
      intro ing' hc
      rw [← h'.2] at hc
      simp only [Option.some.injEq, Prod.mk.injEq] at hc
      rw [← hc.2]
      exact hl
    · unfold getOrCreate cacheCreateIngredient
      dsimp only
      rw [if_neg hn]
      cases hl : lookupIngredient s createIndex with
      | none =>
        refine ⟨by simp, ?_⟩
        intro res cache' h'
        simp at h'
      | some fresh =>
        refine ⟨by simp, ?_⟩
        intro res cache' h'
        simp only [Option.map_some', Option.some.injEq, Prod.mk.injEq] at h'
        intro ing' hc
        rw [← h'.2] at hc
        simp only [Option.some.injEq, Prod.mk.injEq] at hc
        exact absurd hc.1.symm hn

/-- Witness for claim C8: a first call on an empty cache is the uncached
lookup. -/
theorem ingredient_cache_refines_lookup_witness :
    (getOrCreate none sampleStorage1 0).map Prod.fst =
      lookupIngredient sampleStorage1 0 :=
  (ingredient_cache_refines_lookup none sampleStorage1 0
    (fun _ h => nomatch h)).1

/-- Claim C1: in the specify scenario with `input.field = 22`,
`fetch(tracked_fn, input)` returns the specified value 2222 (not the 0
that `tracked_fn_extra`'s body computes, which indeed never executes),
and after `synthetic_write(LOW)` a second fetch returns 2222 again with
zero additional executions of either user function. -/
theorem specify_overrides_recomputation :
    (fetchMain dbStart).1 = 2222 ∧
    extraBodyValue = 0 ∧
    dbAfterFirstFetch.execMain = 1 ∧
    dbAfterFirstFetch.execExtra = 0 ∧
    (fetchMain dbAfterSyntheticWrite).1 = 2222 ∧
    (fetchMain dbAfterSyntheticWrite).2.execMain
      = dbAfterFirstFetch.execMain ∧
    (fetchMain dbAfterSyntheticWrite).2.execExtra
      = dbAfterFirstFetch.execExtra := by
  decide
